import Mathlib

/-!
Verification of the notes CRUD core: the in-memory store
(`InMemoryNoteRepository` in `repository.py`), the validation and
normalization rules (`schemas.py`), and the service layer (`service.py`).

Modelling choices of the shallow embedding:
* note ids (`uuid4` values) are modelled as `Nat`; `uuid4` and
  `datetime.utcnow()` are nondeterministic, so each operation that uses them
  takes the generated id / current time as an explicit parameter;
* timestamps are `Nat` (UTC instants, ordered);
* the Python `dict` underlying the repository is an association list with
  first-match lookup, in-place overwrite and insertion-order values, which is
  exactly the observable behaviour of a Python `dict`;
* Python `str.strip` / `str.rstrip` / `str.lower` are modelled character-wise
  (`pyStrip`, `pyRStrip`, `pyLower`).
-/

/-- Model of Python `str.strip()`: drop leading and trailing whitespace. -/
def pyStrip (s : String) : String :=
  String.mk (((s.data.dropWhile Char.isWhitespace).reverse.dropWhile
    Char.isWhitespace).reverse)

/-- Model of Python `str.rstrip()`: drop trailing whitespace. -/
def pyRStrip (s : String) : String :=
  String.mk ((s.data.reverse.dropWhile Char.isWhitespace).reverse)

/-- Model of Python `str.lower()` (ASCII case folding). -/
def pyLower (s : String) : String :=
  String.mk (s.data.map Char.toLower)

/-- Model of the Python substring test `needle in hay`. -/
def occursIn (needle : List Char) : List Char → Bool
  | [] => needle.isEmpty
  | c :: t => needle.isPrefixOf (c :: t) || occursIn needle t

/-- A persisted note (`schemas.Note`): identifier, fields and timestamps. -/
structure Note where
  id : Nat
  title : String
  content : String
  created_at : Nat
  updated_at : Nat
deriving DecidableEq

/-- The repository's state: the `dict` of `InMemoryNoteRepository._items`. -/
abbrev Store := List (Nat × Note)

/-- Python `dict` lookup `m.get(k)`. -/
def dictGet (m : Store) (k : Nat) : Option Note :=
  match m with
  | [] => none
  | (k', v) :: t => if k' = k then some v else dictGet t k

/-- Python `dict` assignment `m[k] = v`: overwrite in place or append. -/
def dictSet (m : Store) (k : Nat) (v : Note) : Store :=
  match m with
  | [] => [(k, v)]
  | (k', v') :: t => if k' = k then (k, v) :: t else (k', v') :: dictSet t k v

/-- Python `del m[k]` (keys are unique, so filtering is the same). -/
def dictDel (m : Store) (k : Nat) : Store :=
  m.filter (fun kv => kv.1 != k)

/-- `NoteBase.title_trim_and_validate` composed with the pydantic
`Field(min_length=1, max_length=200)` constraints, which pydantic v2 checks
on the raw value before the (mode=after) validator trims it. -/
def validate_title (v : String) : Option String :=
  if v.length < 1 then none
  else if 200 < v.length then none
  else if pyStrip v = "" then none
  else some (pyStrip v)

/-- `NoteBase.content_sanitize` composed with `Field(max_length=10000)`. -/
def validate_content (v : String) : Option String :=
  if 10000 < v.length then none
  else some (pyRStrip v)

/-- A validated `NoteCreate` payload (post-validation field values). -/
structure NoteCreate where
  title : String
  content : String
deriving DecidableEq

/-- Full pydantic validation of a `NoteCreate` body. -/
def NoteCreate.validate (title content : String) : Option NoteCreate :=
  match validate_title title, validate_content content with
  | some t, some c => some { title := t, content := c }
  | _, _ => none

/-- A validated `NoteUpdate` payload: each field optional, post-validation. -/
structure NoteUpdate where
  title : Option String
  content : Option String
deriving DecidableEq

/-- `NoteUpdate.title_optional_trim_and_validate` with its `Field`
constraints: `None` passes through, a provided value is validated as for
create. -/
def validate_title_opt : Option String → Option (Option String)
  | none => some none
  | some raw => (validate_title raw).map some

/-- `NoteUpdate.content_optional_trim` with its `Field` constraint. -/
def validate_content_opt : Option String → Option (Option String)
  | none => some none
  | some raw => (validate_content raw).map some

/-- Full pydantic validation of a `NoteUpdate` body. -/
def NoteUpdate.validate (title content : Option String) : Option NoteUpdate :=
  match validate_title_opt title, validate_content_opt content with
  | some t, some c => some { title := t, content := c }
  | _, _ => none

/-- `schemas.new_note_from_create`: build a `Note` from a validated payload,
a fresh id (`uuid4`) and the current time (`utcnow`), used for both
timestamps. -/
def new_note_from_create (payload : NoteCreate) (fresh_id now : Nat) : Note :=
  { id := fresh_id, title := payload.title, content := payload.content,
    created_at := now, updated_at := now }

/-- `InMemoryNoteRepository.list_notes`: all values, insertion order. -/
def Repo.list_notes (s : Store) : List Note :=
  s.map Prod.snd

/-- `InMemoryNoteRepository.get_note`. -/
def Repo.get_note (s : Store) (note_id : Nat) : Option Note :=
  dictGet s note_id

/-- `InMemoryNoteRepository.create_note`: store under `note.id`, return it. -/
def Repo.create_note (s : Store) (note : Note) : Store × Note :=
  (dictSet s note.id note, note)

/-- `InMemoryNoteRepository.update_note`: absent id gives `None`; otherwise
a full-record replace keeping `id` and `created_at`, taking each provided
field, and stamping `updated_at` with the current time. -/
def Repo.update_note (s : Store) (note_id : Nat) (title content : Option String)
    (now : Nat) : Store × Option Note :=
  match dictGet s note_id with
  | none => (s, none)
  | some existing =>
    let updated : Note :=
      { id := existing.id,
        title := match title with | none => existing.title | some t => t,
        content := match content with | none => existing.content | some c => c,
        created_at := existing.created_at,
        updated_at := now }
    (dictSet s note_id updated, some updated)

/-- `InMemoryNoteRepository.delete_note`: remove if present, report whether
anything was removed. -/
def Repo.delete_note (s : Store) (note_id : Nat) : Store × Bool :=
  match dictGet s note_id with
  | some _ => (dictDel s note_id, true)
  | none => (s, false)

/-- The service's failure modes: `NotFound` is the HTTP 404 raised by the
service, `ValidationError` the pydantic rejection at the boundary. -/
inductive SvcError where
  | NotFound
  | ValidationError
deriving DecidableEq

/-- `NoteService.get_note`: absent id becomes `NotFound`. -/
def Service.get_note (s : Store) (note_id : Nat) : Except SvcError Note :=
  match Repo.get_note s note_id with
  | none => Except.error SvcError.NotFound
  | some n => Except.ok n

/-- `NoteService.create_note`: build the note from the validated payload and
persist it. -/
def Service.create_note (s : Store) (payload : NoteCreate) (fresh_id now : Nat) :
    Store × Note :=
  Repo.create_note s (new_note_from_create payload fresh_id now)

/-- `NoteService.update_note`: delegate to the repository, mapping `None`
to `NotFound`. -/
def Service.update_note (s : Store) (note_id : Nat) (payload : NoteUpdate)
    (now : Nat) : Store × Except SvcError Note :=
  let r := Repo.update_note s note_id payload.title payload.content now
  match r.2 with
  | none => (r.1, Except.error SvcError.NotFound)
  | some n => (r.1, Except.ok n)

/-- `NoteService.delete_note`: delegate to the repository, mapping `False`
to `NotFound`. -/
def Service.delete_note (s : Store) (note_id : Nat) :
    Store × Except SvcError Unit :=
  let r := Repo.delete_note s note_id
  if r.2 then (r.1, Except.ok ()) else (r.1, Except.error SvcError.NotFound)

/-- The POST /notes flow: pydantic validation of the body, then
`NoteService.create_note`; a validation failure leaves the store untouched. -/
def create_note_endpoint (s : Store) (titleRaw contentRaw : String)
    (fresh_id now : Nat) : Store × Except SvcError Note :=
  match NoteCreate.validate titleRaw contentRaw with
  | none => (s, Except.error SvcError.ValidationError)
  | some p =>
    let r := Service.create_note s p fresh_id now
    (r.1, Except.ok r.2)

/-- The GET /notes flow (`routers_notes.list_notes`): list all notes, and if
a non-empty `q` is given, keep the notes whose lowered title contains the
stripped, lowered `q` as a substring. -/
def list_notes_q (s : Store) (q : Option String) : List Note :=
  let notes := Repo.list_notes s
  match q with
  | none => notes
  | some q0 =>
    if q0 = "" then notes
    else
      let q_norm := pyLower (pyStrip q0)
      notes.filter (fun n => occursIn q_norm.data (pyLower n.title).data)

/-! ### Lemmas about the dictionary model -/

theorem dictGet_dictSet_self (m : Store) (k : Nat) (v : Note) :
    dictGet (dictSet m k v) k = some v := by
  induction m with
  | nil => simp [dictSet, dictGet]
  | cons kv t ih =>
    obtain ⟨k', v'⟩ := kv
    by_cases h : k' = k <;> simp [dictSet, dictGet, h, ih]

theorem dictGet_dictSet_ne (m : Store) (k j : Nat) (v : Note) (h : j ≠ k) :
    dictGet (dictSet m k v) j = dictGet m j := by
  induction m with
  | nil => simp [dictSet, dictGet, Ne.symm h]
  | cons kv t ih =>
    obtain ⟨k', v'⟩ := kv
    by_cases hk : k' = k
    · subst hk
      simp [dictSet, dictGet, Ne.symm h]
    · by_cases hj : k' = j <;> simp [dictSet, dictGet, hk, hj, ih, h]

theorem dictGet_dictDel_self (m : Store) (k : Nat) :
    dictGet (dictDel m k) k = none := by
  induction m with
  | nil => simp [dictDel, dictGet]
  | cons kv t ih =>
    obtain ⟨k', v'⟩ := kv
    by_cases h : k' = k <;>
      simp [dictDel, List.filter_cons, dictGet, h, ih] <;>
      simpa [dictDel] using ih

theorem dictGet_mem_values (m : Store) (k : Nat) (n : Note)
    (h : dictGet m k = some n) : n ∈ Repo.list_notes m := by
  induction m with
  | nil => simp [dictGet] at h
  | cons kv t ih =>
    obtain ⟨k', v'⟩ := kv
    by_cases hk : k' = k
    · simp [dictGet, hk] at h
      simp [Repo.list_notes, h]
    · simp [dictGet, hk] at h
      simp [Repo.list_notes] at ih ⊢
      exact Or.inr (ih h)

theorem mem_values_dictSet (m : Store) (k : Nat) (v n : Note)
    (h : n ∈ Repo.list_notes (dictSet m k v)) :
    n = v ∨ n ∈ Repo.list_notes m := by
  induction m with
  | nil => simpa [dictSet, Repo.list_notes] using h
  | cons kv t ih =>
    obtain ⟨k', v'⟩ := kv
    by_cases hk : k' = k
    · simp [dictSet, hk, Repo.list_notes] at h ⊢
      tauto
    · simp [dictSet, hk, Repo.list_notes] at h ⊢
      rcases h with h | h
      · tauto
      · rcases ih (by simpa [Repo.list_notes] using h) with h' | h'
        · tauto
        · simp [Repo.list_notes] at h'
          tauto

theorem mem_values_dictDel (m : Store) (k : Nat) (n : Note)
    (h : n ∈ Repo.list_notes (dictDel m k)) : n ∈ Repo.list_notes m := by
  simp only [Repo.list_notes, List.mem_map, dictDel] at h ⊢
  obtain ⟨kv, hkv, rfl⟩ := h
  exact ⟨kv, List.Sublist.subset (List.filter_sublist _) hkv, rfl⟩

/-! ### Lemmas about validation -/

theorem validate_title_some (v t : String) (h : validate_title v = some t) :
    t = pyStrip v ∧ pyStrip v ≠ "" := by
  unfold validate_title at h
  split at h
  · exact absurd h (by simp)
  · split at h
    · exact absurd h (by simp)
    · split at h
      · exact absurd h (by simp)
      · rename_i hne
        cases h
        exact ⟨rfl, hne⟩

theorem validate_content_some (v c : String) (h : validate_content v = some c) :
    c = pyRStrip v := by
  unfold validate_content at h
  split at h
  · exact absurd h (by simp)
  · cases h
    rfl

theorem noteCreate_validate_some (tRaw cRaw : String) (p : NoteCreate)
    (h : NoteCreate.validate tRaw cRaw = some p) :
    p.title = pyStrip tRaw ∧ pyStrip tRaw ≠ "" ∧ p.content = pyRStrip cRaw := by
  unfold NoteCreate.validate at h
  cases ht : validate_title tRaw with
  | none => simp [ht] at h
  | some t =>
    cases hc : validate_content cRaw with
    | none => simp [ht, hc] at h
    | some c =>
      simp [ht, hc] at h
      obtain ⟨h1, h2⟩ := validate_title_some tRaw t ht
      subst h
      exact ⟨h1, h2, validate_content_some cRaw c hc⟩

/-! ### C1: create then get -/

/-- **C1.** For every valid `(title, content)` input pair — i.e. the pydantic
validation of the body succeeds, producing payload `p` — `Service.create_note`
followed by `Service.get_note` on the id of the returned note returns a note
whose id is that id, whose title is the input title trimmed, whose content is
the input content right-stripped, and whose `created_at` equals its
`updated_at`. -/
theorem create_then_get_roundtrip (s : Store) (tRaw cRaw : String)
    (p : NoteCreate) (fresh_id now : Nat)
    (hv : NoteCreate.validate tRaw cRaw = some p) :
    (Service.create_note s p fresh_id now).2.id = fresh_id ∧
    Service.get_note (Service.create_note s p fresh_id now).1 fresh_id =
      Except.ok { id := fresh_id, title := pyStrip tRaw,
                  content := pyRStrip cRaw, created_at := now,
                  updated_at := now } ∧
    (Service.create_note s p fresh_id now).2.created_at =
      (Service.create_note s p fresh_id now).2.updated_at := by
  obtain ⟨ht, _, hc⟩ := noteCreate_validate_some tRaw cRaw p hv
  refine ⟨rfl, ?_, rfl⟩
  simp [Service.create_note, Repo.create_note, Service.get_note, Repo.get_note,
    new_note_from_create, dictGet_dictSet_self, ht, hc]

/-- Witness for C1 at a concrete input: title `" Hi "`, content `"Body "`. -/
theorem create_then_get_roundtrip_witness :
    (Service.create_note [] ⟨"Hi", "Body"⟩ 5 7).2.id = 5 ∧
    Service.get_note (Service.create_note [] ⟨"Hi", "Body"⟩ 5 7).1 5 =
      Except.ok { id := 5, title := pyStrip " Hi ", content := pyRStrip "Body ",
                  created_at := 7, updated_at := 7 } ∧
    (Service.create_note [] ⟨"Hi", "Body"⟩ 5 7).2.created_at =
      (Service.create_note [] ⟨"Hi", "Body"⟩ 5 7).2.updated_at :=
  create_then_get_roundtrip [] " Hi " "Body " ⟨"Hi", "Body"⟩ 5 7 (by decide)

/-- A sample note and a sample one-note store used by the witnesses. -/
def sampleNote : Note :=
  { id := 1, title := "Hi", content := "x", created_at := 3, updated_at := 4 }

/-- A sample store holding `sampleNote` under its id. -/
def sampleStore : Store := [(1, sampleNote)]

/-! ### C2: content-only update -/

/-- **C2.** For every note already in the store, `Service.update_note` with
title absent and content `c` succeeds and changes only that note's content
and `updated_at`: the returned and stored note keeps `id`, `title` and
`created_at`, its content becomes `c` and its `updated_at` becomes the
current time, which (the clock having advanced strictly past the note's
last-touch time) is strictly greater than the `updated_at` before the call;
every other key of the store is untouched. -/
theorem update_content_only (s : Store) (note_id : Nat) (note : Note)
    (c : String) (now : Nat)
    (hget : Repo.get_note s note_id = some note)
    (hnow : note.updated_at < now) :
    (Service.update_note s note_id ⟨none, some c⟩ now).2 =
      Except.ok { id := note.id, title := note.title, content := c,
                  created_at := note.created_at, updated_at := now } ∧
    dictGet (Service.update_note s note_id ⟨none, some c⟩ now).1 note_id =
      some { id := note.id, title := note.title, content := c,
             created_at := note.created_at, updated_at := now } ∧
    note.updated_at < now ∧
    (∀ j, j ≠ note_id →
      dictGet (Service.update_note s note_id ⟨none, some c⟩ now).1 j =
        dictGet s j) := by
  simp only [Repo.get_note] at hget
  refine ⟨?_, ?_, hnow, ?_⟩
  · simp [Service.update_note, Repo.update_note, hget]
  · simp [Service.update_note, Repo.update_note, hget, dictGet_dictSet_self]
  · intro j hj
    simp [Service.update_note, Repo.update_note, hget,
      dictGet_dictSet_ne _ _ _ _ hj]

/-- Witness for C2: updating the sample store's note at a later time. -/
theorem update_content_only_witness :
    (Service.update_note sampleStore 1 ⟨none, some "new"⟩ 9).2 =
      Except.ok { id := 1, title := "Hi", content := "new",
                  created_at := 3, updated_at := 9 } ∧
    dictGet (Service.update_note sampleStore 1 ⟨none, some "new"⟩ 9).1 2 =
      dictGet sampleStore 2 :=
  ⟨(update_content_only sampleStore 1 sampleNote "new" 9 (by decide)
      (by decide)).1,
   (update_content_only sampleStore 1 sampleNote "new" 9 (by decide)
      (by decide)).2.2.2 2 (by decide)⟩

/-! ### C3: operations on a missing id -/

/-- **C3.** For every id with no live note, `Service.get_note`,
`Service.update_note` and `Service.delete_note` all fail with `NotFound`,
and the store after each failed call is exactly the store before it. -/
theorem missing_id_notfound (s : Store) (note_id : Nat) (p : NoteUpdate)
    (now : Nat) (h : Repo.get_note s note_id = none) :
    Service.get_note s note_id = Except.error SvcError.NotFound ∧
    Service.update_note s note_id p now = (s, Except.error SvcError.NotFound) ∧
    Service.delete_note s note_id = (s, Except.error SvcError.NotFound) := by
  simp only [Repo.get_note] at h
  refine ⟨?_, ?_, ?_⟩ <;>
    simp [Service.get_note, Repo.get_note, Service.update_note,
      Repo.update_note, Service.delete_note, Repo.delete_note, h]

/-- Witness for C3 on the empty store. -/
theorem missing_id_notfound_witness :
    Service.get_note [] 0 = Except.error SvcError.NotFound ∧
    Service.update_note [] 0 ⟨none, none⟩ 0 =
      ([], Except.error SvcError.NotFound) ∧
    Service.delete_note [] 0 = ([], Except.error SvcError.NotFound) :=
  missing_id_notfound [] 0 ⟨none, none⟩ 0 (by decide)

/-! ### C4: whitespace-only title on create -/

/-- **C4.** A create request whose title is whitespace-only fails with
`ValidationError` and leaves the store exactly as it was: no note is added. -/
theorem whitespace_title_create_rejected (s : Store) (tRaw cRaw : String)
    (fresh_id now : Nat) (h : pyStrip tRaw = "") :
    create_note_endpoint s tRaw cRaw fresh_id now =
      (s, Except.error SvcError.ValidationError) := by
  have hv : validate_title tRaw = none := by
    unfold validate_title
    split_ifs <;> simp_all
  have hnc : NoteCreate.validate tRaw cRaw = none := by
    unfold NoteCreate.validate
    cases hc : validate_content cRaw <;> simp [hv, hc]
  unfold create_note_endpoint
  simp [hnc]

/-- Witness for C4: the title `"  "`. -/
theorem whitespace_title_create_rejected_witness :
    create_note_endpoint [] "  " "c" 1 2 =
      ([], Except.error SvcError.ValidationError) :=
  whitespace_title_create_rejected [] "  " "c" 1 2 (by decide)

/-! ### C7: delete then get, idempotent delete -/

/-- **C7.** For every note in the store, `Service.delete_note` succeeds, a
following `Service.get_note` on the same id fails with `NotFound`, and a
second `Service.delete_note` on that id also fails with `NotFound` (the
result is a value of the error type, never any other kind of failure) while
leaving the store unchanged. -/
theorem delete_then_get_notfound (s : Store) (note_id : Nat) (note : Note)
    (h : Repo.get_note s note_id = some note) :
    Service.delete_note s note_id = (dictDel s note_id, Except.ok ()) ∧
    Service.get_note (dictDel s note_id) note_id =
      Except.error SvcError.NotFound ∧
    Service.delete_note (dictDel s note_id) note_id =
      (dictDel s note_id, Except.error SvcError.NotFound) := by
  simp only [Repo.get_note] at h
  refine ⟨?_, ?_, ?_⟩ <;>
    simp [Service.delete_note, Repo.delete_note, Service.get_note,
      Repo.get_note, h, dictGet_dictDel_self]

/-- Witness for C7 on the sample store. -/
theorem delete_then_get_notfound_witness :
    Service.delete_note sampleStore 1 = (dictDel sampleStore 1, Except.ok ()) ∧
    Service.get_note (dictDel sampleStore 1) 1 =
      Except.error SvcError.NotFound ∧
    Service.delete_note (dictDel sampleStore 1) 1 =
      (dictDel sampleStore 1, Except.error SvcError.NotFound) :=
  delete_then_get_notfound sampleStore 1 sampleNote (by decide)

/-! ### C10: empty patch -/

/-- **C10.** The empty patch (`title` and `content` both absent) passes
payload validation, and for every note in the store `Service.update_note`
with it succeeds, returning the note with `id`, `title`, `content` and
`created_at` unchanged and `updated_at` refreshed to the current time. -/
theorem empty_patch_update (s : Store) (note_id : Nat) (note : Note)
    (now : Nat) (h : Repo.get_note s note_id = some note) :
    NoteUpdate.validate none none = some ⟨none, none⟩ ∧
    (Service.update_note s note_id ⟨none, none⟩ now).2 =
      Except.ok { id := note.id, title := note.title, content := note.content,
                  created_at := note.created_at, updated_at := now } := by
  refine ⟨rfl, ?_⟩
  simp only [Repo.get_note] at h
  simp [Service.update_note, Repo.update_note, h]

/-- Witness for C10 on the sample store. -/
theorem empty_patch_update_witness :
    NoteUpdate.validate none none = some ⟨none, none⟩ ∧
    (Service.update_note sampleStore 1 ⟨none, none⟩ 9).2 =
      Except.ok { id := 1, title := "Hi", content := "x",
                  created_at := 3, updated_at := 9 } :=
  empty_patch_update sampleStore 1 sampleNote 9 (by decide)

/-! ### C5: the title length bounds -/

/-- A raw title of 201 characters whose trimmed form has 200 characters. -/
def longTitle : String := String.mk (List.replicate 200 'a' ++ [' '])

set_option maxRecDepth 8000 in
/-- **C5 counterexample.** `longTitle` has trimmed length 200 (within the
claimed 1–200 window on the trimmed title), yet both the create and the
update validators reject it: the 200-character bound is checked on the raw
title before trimming, so the claim is false as stated. -/
theorem title_bound_counterexample :
    (1 ≤ (pyStrip longTitle).length ∧ (pyStrip longTitle).length ≤ 200) ∧
    NoteCreate.validate longTitle "" = none ∧
    NoteUpdate.validate (some longTitle) none = none := by
  decide

/-- **C5 (amended).** A title is accepted by the create and update
validators exactly when its raw length is between 1 and 200 characters and
its trimmed form is non-empty: the 200-character upper bound is measured on
the raw title, before trimming. -/
theorem title_acceptance (v : String) :
    ((validate_title v).isSome = true ↔
      (1 ≤ v.length ∧ v.length ≤ 200 ∧ pyStrip v ≠ "")) ∧
    ((validate_title_opt (some v)).isSome = true ↔
      (1 ≤ v.length ∧ v.length ≤ 200 ∧ pyStrip v ≠ "")) := by
  have h : (validate_title v).isSome = true ↔
      (1 ≤ v.length ∧ v.length ≤ 200 ∧ pyStrip v ≠ "") := by
    unfold validate_title
    split_ifs with h1 h2 h3
    · simp only [Option.isSome_none, Bool.false_eq_true, false_iff]
      rintro ⟨ha, -, -⟩
      omega
    · simp only [Option.isSome_none, Bool.false_eq_true, false_iff]
      rintro ⟨-, hb, -⟩
      omega
    · simp only [Option.isSome_none, Bool.false_eq_true, false_iff]
      rintro ⟨-, -, hc⟩
      exact hc h3
    · simp only [Option.isSome_some, true_iff]
      refine ⟨by omega, by omega, h3⟩
  exact ⟨h, by simpa [validate_title_opt] using h⟩

/-! ### C6: listing with a title filter -/

theorem occursIn_nil (l : List Char) : occursIn [] l = true := by
  cases l <;> simp [occursIn, List.isPrefixOf]

theorem filter_all_true {α : Type} (p : α → Bool) (l : List α)
    (h : ∀ a, p a = true) : l.filter p = l := by
  induction l with
  | nil => rfl
  | cons a t ih => simp [List.filter_cons, h a, ih]

/-- The note created first in the C6 example scenario. -/
def noteNotebook : Note :=
  { id := 1, title := "Notebook", content := "", created_at := 10,
    updated_at := 10 }

/-- The note created third in the C6 example scenario. -/
def noteNOTES : Note :=
  { id := 3, title := "NOTES", content := "", created_at := 12,
    updated_at := 12 }

/-- The store after creating notes titled `"Notebook"`, `"Grocery list"`
and `"NOTES"` through the create endpoint. -/
def exampleStore : Store :=
  (create_note_endpoint
    ((create_note_endpoint
      ((create_note_endpoint [] "Notebook" "" 1 10).1)
      "Grocery list" "" 2 11).1)
    "NOTES" "" 3 12).1

/-- **C6.** Listing with a filter: if the filter, stripped and case-folded,
is non-empty, the result is exactly the notes (full field set unchanged)
whose case-folded title contains it as a substring; if the filter is empty
or whitespace-only, the result is all notes; and in the concrete scenario —
notes titled `"Notebook"`, `"Grocery list"`, `"NOTES"`, filter `"not"` —
the result is exactly the `"Notebook"` and `"NOTES"` notes. -/
theorem list_filter_characterization :
    (∀ (s : Store) (q : String), pyLower (pyStrip q) ≠ "" →
      ∀ n : Note, n ∈ list_notes_q s (some q) ↔
        (n ∈ Repo.list_notes s ∧
         occursIn (pyLower (pyStrip q)).data (pyLower n.title).data = true)) ∧
    (∀ (s : Store) (q : String), pyStrip q = "" →
      list_notes_q s (some q) = Repo.list_notes s) ∧
    (list_notes_q exampleStore (some "not") = [noteNotebook, noteNOTES]) := by
  refine ⟨?_, ?_, ?_⟩
  · intro s q hq n
    have hq0 : q ≠ "" := by
      rintro rfl
      exact hq rfl
    simp [list_notes_q, hq0, List.mem_filter]
  · intro s q hq
    by_cases hq0 : q = ""
    · simp [list_notes_q, hq0]
    · have hd : (pyLower (pyStrip q)).data = [] := by rw [hq]; rfl
      simp only [list_notes_q, if_neg hq0, hd]
      exact filter_all_true _ _ (fun a => occursIn_nil _)
  · decide

/-- Witness for C6: the `"Notebook"` note is in the filtered listing. -/
theorem list_filter_characterization_witness :
    noteNotebook ∈ list_notes_q exampleStore (some "not") :=
  (list_filter_characterization.1 exampleStore "not" (by decide)
    noteNotebook).mpr ⟨by decide, by decide⟩

/-! ### Whitespace lemmas about `pyStrip` -/

theorem head_dropWhile_false (p : Char → Bool) :
    ∀ (l : List Char) (x : Char) (rest : List Char),
      l.dropWhile p = x :: rest → p x = false := by
  intro l
  induction l with
  | nil => intro x rest h; simp [List.dropWhile] at h
  | cons a t ih =>
    intro x rest h
    by_cases ha : p a
    · rw [List.dropWhile_cons, if_pos ha] at h
      exact ih x rest h
    · rw [List.dropWhile_cons, if_neg ha] at h
      cases h
      simpa using ha

theorem mem_dropWhile_of_not (p : Char → Bool) (x : Char) (hx : p x = false) :
    ∀ l : List Char, x ∈ l → x ∈ l.dropWhile p := by
  intro l
  induction l with
  | nil => simp
  | cons a t ih =>
    intro hmem
    by_cases ha : p a
    · rw [List.dropWhile_cons, if_pos ha]
      rcases List.mem_cons.mp hmem with rfl | h
      · rw [ha] at hx; cases hx
      · exact ih h
    · rw [List.dropWhile_cons, if_neg ha]
      exact hmem

/-- A non-empty stripped string contains a non-whitespace character. -/
theorem pyStrip_ne_has_nonws (v : String) (h : pyStrip v ≠ "") :
    ∃ c ∈ (pyStrip v).data, Char.isWhitespace c = false := by
  have hdata : (pyStrip v).data =
      ((v.data.dropWhile Char.isWhitespace).reverse.dropWhile
        Char.isWhitespace).reverse := rfl
  have hbne : (v.data.dropWhile Char.isWhitespace).reverse.dropWhile
      Char.isWhitespace ≠ [] := by
    intro hb0
    apply h
    show String.mk _ = ""
    rw [hb0]
    rfl
  cases hxr : (v.data.dropWhile Char.isWhitespace).reverse.dropWhile
      Char.isWhitespace with
  | nil => exact absurd hxr hbne
  | cons x rest =>
    refine ⟨x, ?_, head_dropWhile_false _ _ _ _ hxr⟩
    rw [hdata, hxr]
    simp

/-- A string containing a non-whitespace character strips to non-empty. -/
theorem nonws_pyStrip_ne (v : String) (c : Char) (hc : c ∈ v.data)
    (hcw : Char.isWhitespace c = false) : pyStrip v ≠ "" := by
  intro h0
  have hdata : ((v.data.dropWhile Char.isWhitespace).reverse.dropWhile
      Char.isWhitespace).reverse = [] := congrArg String.data h0
  have h1 : (v.data.dropWhile Char.isWhitespace).reverse.dropWhile
      Char.isWhitespace = [] := List.reverse_eq_nil_iff.mp hdata
  have h2 := List.dropWhile_eq_nil_iff.mp h1
  have hc1 : c ∈ v.data.dropWhile Char.isWhitespace :=
    mem_dropWhile_of_not _ _ hcw _ hc
  have := h2 c (List.mem_reverse.mpr hc1)
  rw [hcw] at this
  cases this

/-! ### The reachable-state model for the invariants -/

/-- A system state: the repository's store together with a clock that is an
upper bound on every timestamp handed out so far (real time only moves
forward between operations). -/
structure Sys where
  store : Store
  clock : Nat

/-- One service operation with a validated payload: create, update or
delete, at a current time `now` no earlier than the clock. -/
inductive Step : Sys → Sys → Prop where
  | create (σ : Sys) (tRaw cRaw : String) (p : NoteCreate)
      (fresh_id now : Nat) (hv : NoteCreate.validate tRaw cRaw = some p)
      (hnow : σ.clock ≤ now) :
      Step σ ⟨(Service.create_note σ.store p fresh_id now).1, now⟩
  | update (σ : Sys) (tr cr : Option String) (p : NoteUpdate)
      (note_id now : Nat) (hv : NoteUpdate.validate tr cr = some p)
      (hnow : σ.clock ≤ now) :
      Step σ ⟨(Service.update_note σ.store note_id p now).1, now⟩
  | del (σ : Sys) (note_id : Nat) :
      Step σ ⟨(Service.delete_note σ.store note_id).1, σ.clock⟩

/-- States reachable from the empty store through service operations. -/
inductive Reach : Sys → Prop where
  | init : Reach ⟨[], 0⟩
  | next {σ σ' : Sys} : Reach σ → Step σ σ' → Reach σ'

/-- The invariant each stored note satisfies: ordered timestamps bounded by
the clock, and a title containing a non-whitespace character. -/
def NoteOk (clock : Nat) (n : Note) : Prop :=
  n.created_at ≤ n.updated_at ∧ n.updated_at ≤ clock ∧
  ∃ c ∈ n.title.data, Char.isWhitespace c = false

/-- Every note of a reachable store satisfies `NoteOk`. -/
def StoreInv (σ : Sys) : Prop :=
  ∀ n ∈ Repo.list_notes σ.store, NoteOk σ.clock n

theorem noteUpdate_validate_title (tr cr : Option String) (p : NoteUpdate)
    (h : NoteUpdate.validate tr cr = some p) :
    p.title = none ∨
    ∃ raw, p.title = some (pyStrip raw) ∧ pyStrip raw ≠ "" := by
  unfold NoteUpdate.validate at h
  cases ht : validate_title_opt tr with
  | none => simp [ht] at h
  | some t =>
    cases hc : validate_content_opt cr with
    | none => simp [ht, hc] at h
    | some c =>
      simp [ht, hc] at h
      subst h
      cases tr with
      | none =>
        simp [validate_title_opt] at ht
        exact Or.inl ht.symm
      | some raw =>
        simp [validate_title_opt] at ht
        obtain ⟨t0, ht0, rfl⟩ := ht
        obtain ⟨rfl, hne⟩ := validate_title_some raw t0 ht0
        exact Or.inr ⟨raw, rfl, hne⟩

theorem reach_inv (σ : Sys) (h : Reach σ) : StoreInv σ := by
  induction h with
  | init => intro n hn; simp [Repo.list_notes] at hn
  | next hr hstep ih =>
    rename_i σ0 σ1
    cases hstep with
    | create tRaw cRaw p fresh_id now hv hnow =>
      intro n hn
      obtain ⟨ht, htne, -⟩ := noteCreate_validate_some tRaw cRaw p hv
      simp only [Service.create_note, Repo.create_note,
        new_note_from_create] at hn
      rcases mem_values_dictSet _ _ _ _ hn with rfl | hold
      · refine ⟨le_refl _, le_refl _, ?_⟩
        simp only [ht]
        exact pyStrip_ne_has_nonws tRaw htne
      · obtain ⟨h1, h2, h3⟩ := ih n hold
        exact ⟨h1, le_trans h2 hnow, h3⟩
    | update tr cr p note_id now hv hnow =>
      intro n hn
      cases hg : dictGet σ0.store note_id with
      | none =>
        simp only [Service.update_note, Repo.update_note, hg] at hn
        obtain ⟨h1, h2, h3⟩ := ih n hn
        exact ⟨h1, le_trans h2 hnow, h3⟩
      | some existing =>
        simp only [Service.update_note, Repo.update_note, hg] at hn
        have hex := ih existing (dictGet_mem_values _ _ _ hg)
        rcases mem_values_dictSet _ _ _ _ hn with rfl | hold
        · refine ⟨le_trans hex.1 (le_trans hex.2.1 hnow), le_refl _, ?_⟩
          cases hp : p.title with
          | none => simpa [hp] using hex.2.2
          | some t =>
            rcases noteUpdate_validate_title tr cr p hv with h0 | ⟨raw, hq, hne⟩
            · rw [hp] at h0; cases h0
            · rw [hp] at hq
              cases hq
              simpa [hp] using pyStrip_ne_has_nonws raw hne
        · obtain ⟨h1, h2, h3⟩ := ih n hold
          exact ⟨h1, le_trans h2 hnow, h3⟩
    | del note_id =>
      intro n hn
      cases hg : dictGet σ0.store note_id with
      | none =>
        simp only [Service.delete_note, Repo.delete_note, hg] at hn
        exact ih n hn
      | some existing =>
        simp only [Service.delete_note, Repo.delete_note, hg] at hn
        exact ih n (mem_values_dictDel _ _ _ hn)

/-! ### C8: timestamp ordering invariant -/

/-- **C8.** In every store state reachable through the service's create,
update and delete operations, every stored note satisfies
`created_at ≤ updated_at`. -/
theorem created_le_updated_invariant (σ : Sys) (h : Reach σ) (n : Note)
    (hn : n ∈ Repo.list_notes σ.store) : n.created_at ≤ n.updated_at :=
  (reach_inv σ h n hn).1

/-- The state after one concrete create, used by the C8 and C9 witnesses. -/
def witnessSys : Sys := ⟨(Service.create_note [] ⟨"Hi", ""⟩ 1 5).1, 5⟩

/-- The note living in `witnessSys`. -/
def wNote : Note :=
  { id := 1, title := "Hi", content := "", created_at := 5, updated_at := 5 }

/-- Witness for C8: the single note of a concretely reached store. -/
theorem created_le_updated_invariant_witness :
    wNote.created_at ≤ wNote.updated_at :=
  created_le_updated_invariant witnessSys
    (Reach.next Reach.init
      (Step.create ⟨[], 0⟩ "Hi" "" ⟨"Hi", ""⟩ 1 5 (by decide) (by decide)))
    wNote (by decide)

/-! ### C9: title non-emptiness invariant -/

/-- **C9.** In every store state reachable through the service's create,
update and delete operations with validated payloads, every stored note's
title is non-empty and not whitespace-only (its trimmed form is
non-empty). -/
theorem title_nonempty_invariant (σ : Sys) (h : Reach σ) (n : Note)
    (hn : n ∈ Repo.list_notes σ.store) :
    n.title ≠ "" ∧ pyStrip n.title ≠ "" := by
  obtain ⟨-, -, c, hc, hcw⟩ := reach_inv σ h n hn
  constructor
  · intro h0
    rw [h0] at hc
    simp at hc
  · exact nonws_pyStrip_ne _ c hc hcw

/-- Witness for C9: the single note of a concretely reached store. -/
theorem title_nonempty_invariant_witness :
    wNote.title ≠ "" ∧ pyStrip wNote.title ≠ "" :=
  title_nonempty_invariant witnessSys
    (Reach.next Reach.init
      (Step.create ⟨[], 0⟩ "Hi" "" ⟨"Hi", ""⟩ 1 5 (by decide) (by decide)))
    wNote (by decide)
